import Mathlib

/-!
# Verification of the chainage/offset core

Shallow embedding of the algorithmic core of the repository:

* `data_to_polyline`  (src/csv_to_polyline.py, duplicated in src/app.py) —
  turns alignment records into a polyline (shapely `LineString` modelled as
  its coordinate list);
* `calculate_chainage_offset`  (src/cal_ch_offset.py, duplicated verbatim in
  src/app.py) — for each survey row, finds the nearest polyline *vertex* via
  a KDTree query, reports `round(polyline.project(vertex), 3)` as the
  chainage and `round(distance(survey_point, vertex), 3)` as the offset,
  then assigns the two result lists as columns of the dataframe.

Coordinates are modelled as real numbers (the source computes with IEEE
doubles; exact float semantics are out of scope, the real-number model is
the standard idealisation).  Python `round(x, 3)` rounds half to even on
binary floats; it is modelled as `round3` below via Mathlib's `round`
(half up).  The two agree except at exact half-thousandth ties, which no
statement here goes near.
-/

/-- A pandas cell as this pipeline sees it: either a string or a number.
The survey CSVs are read with `dtype=str` fallbacks, so a coordinate cell
can hold a string (in particular the embedded header literal `"Easting"`). -/
inductive Cell where
  | str : String → Cell
  | num : ℝ → Cell

/-- The test `isinstance(v, str) and v == "Easting"` from
src/cal_ch_offset.py lines 14–15. -/
def Cell.isHeaderEasting : Cell → Bool
  | .str s => s == "Easting"
  | .num _ => false

/-- Using a cell as a coordinate: `shapely.geometry.Point` accepts numbers
and raises on a string cell. -/
def Cell.toNum : Cell → Option ℝ
  | .str _ => none
  | .num x => some x

/-- One row of the survey dataframe.  The three required columns
`{"Point", "Northing", "Easting"}` are present by construction, so the
`required_columns.issubset` check of the source always passes here (its
`ValueError` branch is for frames missing a column and is not modelled). -/
structure SurveyRow where
  point : Cell
  northing : Cell
  easting : Cell

/-- The survey dataframe: its rows plus the two columns the function may
add.  `none` means the column is absent. -/
structure SurveyDF where
  rows : List SurveyRow
  chainage : Option (List ℝ) := none
  offset : Option (List ℝ) := none

/-- One alignment record as `data_to_polyline` consumes it.  `none` models
a missing (NaN) value, which `dropna` removes.  The `Point` column is
checked for presence but never read, so it is not carried. -/
structure AlignRecord where
  northing : Option ℝ
  easting : Option ℝ
  chainage : Option ℝ

/-- Errors the embedded functions can raise. -/
inductive Err where
  /-- pandas `IndexError`, e.g. `.iloc[0]` on an empty frame, or indexing
  `polyline_points[nearest_index]` out of range. -/
  | indexError
  /-- shapely error constructing a `Point` from a non-numeric cell. -/
  | pointInitError
  /-- shapely `ValueError`: a `LineString` cannot be built from exactly one
  coordinate tuple. -/
  | singleCoordinate
  /-- `ValueError` from the `required_columns.issubset` check: a frame with a
  required column absent.  `AlignRecord` carries the columns structurally, so
  within the model this only arises for an empty record list —
  `pd.DataFrame([])` has no columns at all. -/
  | missingColumns
deriving DecidableEq

/-! ## Geometry -/

/-- Squared Euclidean distance between two planar points. -/
def dist2 (p q : ℝ × ℝ) : ℝ := (p.1 - q.1) ^ 2 + (p.2 - q.2) ^ 2

/-- Euclidean distance (shapely `Point.distance`). -/
noncomputable def edist2d (p q : ℝ × ℝ) : ℝ := Real.sqrt (dist2 p q)

/-- The point of segment `a`–`b` at parameter `t`. -/
def segPoint (a b : ℝ × ℝ) (t : ℝ) : ℝ × ℝ :=
  (a.1 + t * (b.1 - a.1), a.2 + t * (b.2 - a.2))

/-- Parameter of the orthogonal projection of `p` onto segment `a`–`b`,
clamped to `[0,1]`; `0` for a degenerate segment. -/
noncomputable def footParam (a b p : ℝ × ℝ) : ℝ :=
  let d2 := dist2 a b
  if d2 = 0 then 0
  else max 0 (min 1 (((p.1 - a.1) * (b.1 - a.1) + (p.2 - a.2) * (b.2 - a.2)) / d2))

/-- Nearest point of segment `a`–`b` to `p`. -/
noncomputable def footPoint (a b p : ℝ × ℝ) : ℝ × ℝ :=
  segPoint a b (footParam a b p)

/-- `p` lies on the polyline: on a vertex or anywhere on a connecting
segment. -/
def onPolyline (coords : List (ℝ × ℝ)) (p : ℝ × ℝ) : Prop :=
  (∃ q ∈ coords, p = q) ∨
    ∃ s ∈ coords.zip coords.tail, ∃ t : ℝ, 0 ≤ t ∧ t ≤ 1 ∧ p = segPoint s.1 s.2 t

/-- Loop of `LineString.project`: walk the segments keeping the arc-length
position of the best (earliest, strictly closest) point found so far.
`cum` is the arc length up to the current segment, `bestD2`/`bestPos` the
squared distance and arc-length position of the best candidate. -/
noncomputable def projectLoop (p : ℝ × ℝ) :
    List ((ℝ × ℝ) × (ℝ × ℝ)) → ℝ → ℝ → ℝ → ℝ
  | [], _, _, bestPos => bestPos
  | (a, b) :: rest, cum, bestD2, bestPos =>
      let t := footParam a b p
      let f := segPoint a b t
      let d2f := dist2 p f
      let segLen := edist2d a b
      if d2f < bestD2 then
        projectLoop p rest (cum + segLen) d2f (cum + t * segLen)
      else
        projectLoop p rest (cum + segLen) bestD2 bestPos

/-- shapely `LineString.project(point)`: arc length from the start of the
line to the point of the line nearest to `point` (earliest such point on
ties).  The source only ever calls it on a vertex of the line. -/
noncomputable def lineProject (coords : List (ℝ × ℝ)) (p : ℝ × ℝ) : ℝ :=
  match coords with
  | [] => 0
  | c :: _ => projectLoop p (coords.zip coords.tail) 0 (dist2 p c) 0

/-- Loop of the KDTree nearest-vertex query: least index attaining the
minimal distance (`scipy` returns a single nearest index; exact ties are
resolved to the first point inserted, i.e. the lowest index). -/
noncomputable def nearestIdxLoop (p : ℝ × ℝ) :
    List (ℝ × ℝ) → ℕ → ℕ → ℝ → ℕ
  | [], _, besti, _ => besti
  | q :: rest, i, besti, bestD2 =>
      if dist2 p q < bestD2 then nearestIdxLoop p rest (i + 1) i (dist2 p q)
      else nearestIdxLoop p rest (i + 1) besti bestD2

/-- `KDTree(polyline_points).query([x, y])`, index part: index of the
vertex nearest to `p`.  On an empty point set scipy's query reports the
out-of-range miss index `n`, here `0`. -/
noncomputable def nearestIdx (pts : List (ℝ × ℝ)) (p : ℝ × ℝ) : ℕ :=
  match pts with
  | [] => 0
  | q :: rest => nearestIdxLoop p rest 1 0 (dist2 p q)

/-- Python `round(x, 3)` modelled over ℝ: round `x·1000` to an integer and
divide back.  (Mathlib's `round` is half-up; CPython rounds the double
half-to-even — they differ only at exact `.0005` ties, never hit here.) -/
noncomputable def round3 (x : ℝ) : ℝ := (round (x * 1000) : ℤ) / 1000

/-! ## `data_to_polyline` (src/csv_to_polyline.py) -/

/-- `dropna(subset=["Northing", "Easting", "Chainage"])`, per record: the
record survives iff all three values are present.  Result triple is
`(northing, easting, chainage)`. -/
def validFields (r : AlignRecord) : Option (ℝ × ℝ × ℝ) :=
  match r.northing, r.easting, r.chainage with
  | some n, some e, some c => some (n, e, c)
  | _, _, _ => none

/-- `LineString(coordinates)`: shapely accepts zero coordinates (empty
geometry) and two or more; exactly one raises a `ValueError`. -/
def lineStringOf (coords : List (ℝ × ℝ)) : Except Err (List (ℝ × ℝ)) :=
  if coords.length = 1 then .error .singleCoordinate else .ok coords

/-- src/csv_to_polyline.py `data_to_polyline`: drop records with missing
values, sort ascending by chainage, build the `LineString` over the
`(Easting, Northing)` pairs.  `df.sort_values(by="Chainage")` uses pandas'
default quicksort, whose order on equal keys is implementation-defined; it
is modelled as an insertion sort, and no theorem below draws a conclusion
about the order of tied records from this modelling choice.  An empty
record list gives `pd.DataFrame([])`, which has no columns, so the
`required_columns` check raises its `ValueError` there. -/
noncomputable def data_to_polyline (data : List AlignRecord) : Except Err (List (ℝ × ℝ)) :=
  if data.isEmpty then .error .missingColumns
  else
    let valid := data.filterMap validFields
    let sorted := valid.insertionSort (fun x y => x.2.2 ≤ y.2.2)
    let coordinates := sorted.map (fun x => (x.2.1, x.1))
    lineStringOf coordinates

/-! ## `calculate_chainage_offset` (src/cal_ch_offset.py) -/

/-- One iteration of the survey loop (src/cal_ch_offset.py lines 26–40):
build the `Point` (raising on a non-numeric cell), query the KDTree for
the nearest vertex, return `(chainage, offset)` =
`(round(polyline.project(vertex), 3), round(point.distance(vertex), 3))`.
The out-of-range miss index of a query against an empty polyline turns
into an `IndexError` at `polyline_points[nearest_index]`. -/
noncomputable def processRow (polyline : List (ℝ × ℝ)) (row : SurveyRow) :
    Except Err (ℝ × ℝ) :=
  match row.easting.toNum, row.northing.toNum with
  | some e, some n =>
      let p : ℝ × ℝ := (e, n)
      match polyline.get? (nearestIdx polyline p) with
      | none => .error .indexError
      | some v => .ok (round3 (lineProject polyline v), round3 (edist2d p v))
  | _, _ => .error .pointInitError

/-- The survey loop: the `chainage_list` / `offset_list` accumulation.  An
exception in any iteration aborts the whole call. -/
noncomputable def processRows (polyline : List (ℝ × ℝ)) :
    List SurveyRow → Except Err (List ℝ × List ℝ)
  | [] => .ok ([], [])
  | r :: rest =>
      match processRow polyline r with
      | .error e => .error e
      | .ok (c, o) =>
          match processRows polyline rest with
          | .error e => .error e
          | .ok (cs, os) => .ok (c :: cs, o :: os)

/-- src/cal_ch_offset.py `calculate_chainage_offset` (the copy in
src/app.py lines 10–50 is identical).  The result models both the returned
frame and the caller's frame after the call: `survey_df["Chainage"] = …`
mutates the frame the local name is bound to, which is the caller's object
unless the header-skip branch rebound it to the `iloc[1:]` copy.  On an
empty frame `survey_df["Easting"].iloc[0]` raises an `IndexError` before
anything else happens. -/
noncomputable def calculate_chainage_offset (survey_df : SurveyDF)
    (polyline : List (ℝ × ℝ)) : Except Err (SurveyDF × SurveyDF) :=
  match survey_df.rows with
  | [] => .error .indexError
  | r0 :: rest =>
      let skipped := r0.easting.isHeaderEasting
      let working := if skipped then rest else r0 :: rest
      match processRows polyline working with
      | .error e => .error e
      | .ok (cs, os) =>
          let result : SurveyDF := ⟨working, some cs, some os⟩
          .ok (result, if skipped then survey_df else result)

/-- First row's Easting is the embedded header literal. -/
def headerFirst : List SurveyRow → Bool
  | [] => false
  | r :: _ => r.easting.isHeaderEasting

/-- Both coordinate cells of the row are numeric, so `Point(easting,
northing)` succeeds. -/
def numericRow (r : SurveyRow) : Prop :=
  r.easting.toNum.isSome ∧ r.northing.toNum.isSome

/-! ## The projection step the spec describes

Modelled from the spec (§4.2 step 2), for comparison with the source:
after the nearest vertex `V` is found, the spec's engine projects the
survey point onto the two segments incident to `V` (clamped) and selects,
among `V` and the two feet, the point minimizing the distance to the
survey point. -/

/-- First element of the list strictly closer to `p` than all elements
before it (the running minimum of a left-to-right scan). -/
noncomputable def closestIn (p : ℝ × ℝ) : List (ℝ × ℝ) → ℝ × ℝ → ℝ × ℝ
  | [], best => best
  | q :: rest, best =>
      if dist2 p q < dist2 p best then closestIn p rest q
      else closestIn p rest best

/-- Modelled from the spec: the candidate set `{V, foot-on-prev-segment,
foot-on-next-segment}` for survey point `p`, where `V` is the nearest
centerline vertex. -/
noncomputable def specCandidates (coords : List (ℝ × ℝ)) (p : ℝ × ℝ) :
    List (ℝ × ℝ) :=
  let i := nearestIdx coords p
  let V := coords.getD i (0, 0)
  [V] ++
    (if i = 0 then [] else [footPoint (coords.getD (i - 1) (0, 0)) V p]) ++
    (if i + 1 < coords.length then [footPoint V (coords.getD (i + 1) (0, 0)) p] else [])

/-- Modelled from the spec: the selected nearest point — the candidate of
`specCandidates` minimizing the Euclidean distance to `p`. -/
noncomputable def specSelected (coords : List (ℝ × ℝ)) (p : ℝ × ℝ) : ℝ × ℝ :=
  match specCandidates coords p with
  | [] => (0, 0)
  | c :: rest => closestIn p rest c

/-! ## Helper lemmas -/

theorem round3_int (n : ℤ) : round3 (n : ℝ) = n := by
  rw [round3, show ((n : ℝ) * 1000) = ((n * 1000 : ℤ) : ℝ) by push_cast; ring,
    round_intCast]
  push_cast
  ring

theorem nearestIdxLoop_lt (p : ℝ × ℝ) (l : List (ℝ × ℝ)) :
    ∀ i besti bd, besti < i → nearestIdxLoop p l i besti bd < i + l.length := by
  induction l with
  | nil => intro i besti bd h; simpa [nearestIdxLoop] using Nat.lt_of_lt_of_le h (Nat.le_refl i)
  | cons q rest ih =>
      intro i besti bd h
      rw [nearestIdxLoop]
      by_cases hc : dist2 p q < bd
      · rw [if_pos hc]
        have := ih (i + 1) i (dist2 p q) (Nat.lt_succ_self i)
        simpa [Nat.add_comm, Nat.add_assoc, Nat.add_left_comm] using this
      · rw [if_neg hc]
        have := ih (i + 1) besti bd (Nat.lt_succ_of_lt h)
        simpa [Nat.add_comm, Nat.add_assoc, Nat.add_left_comm] using this

theorem nearestIdx_lt (pts : List (ℝ × ℝ)) (p : ℝ × ℝ) (h : pts ≠ []) :
    nearestIdx pts p < pts.length := by
  match pts with
  | [] => exact absurd rfl h
  | q :: rest =>
      rw [nearestIdx]
      have := nearestIdxLoop_lt p rest 1 0 (dist2 p q) Nat.one_pos
      simpa [Nat.add_comm] using this

theorem processRow_ok (polyline : List (ℝ × ℝ)) (row : SurveyRow)
    (hrow : numericRow row) (hpoly : polyline ≠ []) :
    ∃ c o, processRow polyline row = .ok (c, o) := by
  obtain ⟨he, hn⟩ := hrow
  obtain ⟨e, he'⟩ := Option.isSome_iff_exists.mp he
  obtain ⟨n, hn'⟩ := Option.isSome_iff_exists.mp hn
  simp only [processRow, he', hn']
  have hlt := nearestIdx_lt polyline (e, n) hpoly
  have hv : polyline.get? (nearestIdx polyline (e, n)) =
      some (polyline.get ⟨nearestIdx polyline (e, n), hlt⟩) := List.get?_eq_get hlt
  rw [hv]
  exact ⟨_, _, rfl⟩

theorem processRows_length (polyline : List (ℝ × ℝ)) (l : List SurveyRow)
    (cs os : List ℝ) (h : processRows polyline l = .ok (cs, os)) :
    cs.length = l.length ∧ os.length = l.length := by
  induction l generalizing cs os with
  | nil =>
      rw [processRows] at h
      injection h with h
      injection h with h1 h2
      simp [← h1, ← h2]
  | cons r rest ih =>
      rw [processRows] at h
      match hr : processRow polyline r with
      | .error e => rw [hr] at h; exact absurd h (by simp)
      | .ok (c, o) =>
          rw [hr] at h
          match hrs : processRows polyline rest with
          | .error e => rw [hrs] at h; exact absurd h (by simp)
          | .ok (cs', os') =>
              rw [hrs] at h
              injection h with h
              injection h with h1 h2
              obtain ⟨ih1, ih2⟩ := ih cs' os' hrs
              simp [← h1, ← h2, ih1, ih2]

theorem processRows_ok (polyline : List (ℝ × ℝ)) (l : List SurveyRow)
    (hl : ∀ r ∈ l, numericRow r) (hpoly : polyline ≠ []) :
    ∃ cs os, processRows polyline l = .ok (cs, os) ∧
      cs.length = l.length ∧ os.length = l.length := by
  induction l with
  | nil => exact ⟨[], [], rfl, rfl, rfl⟩
  | cons r rest ih =>
      obtain ⟨c, o, hr⟩ := processRow_ok polyline r (hl r (by simp)) hpoly
      obtain ⟨cs, os, hrs, h1, h2⟩ := ih (fun x hx => hl x (by simp [hx]))
      refine ⟨c :: cs, o :: os, ?_, by simp [h1], by simp [h2]⟩
      rw [processRows, hr, hrs]

theorem round3_zero : round3 0 = 0 := by
  simpa using round3_int 0

/-- Evaluation of the projection call on the survey frame
`[Point "P1", Northing 0, Easting 1]` against the polyline
`[(0,0),(10,0)]`: the nearest vertex is `(0,0)`, chainage `0`, offset `1`,
and both columns are written into the frame that is returned, which in the
source is the caller's frame. -/
theorem calcEvalOneNumeric :
    calculate_chainage_offset ⟨[⟨.str "P1", .num 0, .num 1⟩], none, none⟩ [(0,0),(10,0)] =
      .ok (⟨[⟨.str "P1", .num 0, .num 1⟩], some [0], some [1]⟩,
           ⟨[⟨.str "P1", .num 0, .num 1⟩], some [0], some [1]⟩) := by
  have hn : nearestIdx [((0:ℝ),(0:ℝ)),(10,0)] (1,0) = 0 := by
    norm_num [nearestIdx, nearestIdxLoop, dist2]
  have hp : lineProject [((0:ℝ),(0:ℝ)),(10,0)] (0,0) = 0 := by
    norm_num [lineProject, projectLoop, footParam, segPoint, dist2]
  have h1 : edist2d (1, 0) (0, 0) = 1 := by
    rw [edist2d, dist2]
    norm_num
  have hrow : processRow [(0,0),(10,0)] ⟨.str "P1", .num 0, .num 1⟩ = .ok (0, 1) := by
    simp only [processRow, Cell.toNum, hn]
    rw [show ([((0:ℝ),(0:ℝ)),(10,0)].get? 0) = some (0,0) from rfl]
    simp only [hp, h1]
    rw [round3_zero, show round3 1 = 1 by simpa using round3_int 1]
  simp only [calculate_chainage_offset, Cell.isHeaderEasting, processRows, hrow]
  rfl

/-! ## Claims -/

/-- Claim C1: the spec requires, per survey point `P`, projecting `P` onto
the two segments incident to the nearest vertex `V` (clamped to `[0,1]`)
and selecting among `V` and the two feet the point nearest to `P`, the
offset being the distance to that selected point and the chainage its arc
length.  The code (src/cal_ch_offset.py lines 29–37) skips the segment
refinement entirely: it uses the raw nearest vertex.  At survey point
`(4,3)` against centerline `[(0,0),(10,0)]` the code reports chainage `0`
and offset `5` (the nearest vertex is `(0,0)`), while the claimed
selection picks the foot `(4,0)` on the segment out of `V`, whose rounded
distance is `3` and whose rounded arc length is `4`. -/
theorem C1_code_skips_segment_refinement :
    calculate_chainage_offset ⟨[⟨.str "P1", .num 3, .num 4⟩], none, none⟩ [(0,0),(10,0)] =
      .ok (⟨[⟨.str "P1", .num 3, .num 4⟩], some [0], some [5]⟩,
           ⟨[⟨.str "P1", .num 3, .num 4⟩], some [0], some [5]⟩) ∧
    specSelected [(0,0),(10,0)] (4,3) = (4,0) ∧
    round3 (edist2d (4,3) (4,0)) = 3 ∧
    round3 (lineProject [(0,0),(10,0)] (4,0)) = 4 := by
  have hn : nearestIdx [((0:ℝ),(0:ℝ)),(10,0)] (4,3) = 0 := by
    norm_num [nearestIdx, nearestIdxLoop, dist2]
  refine ⟨?_, ?_, ?_, ?_⟩
  · have hp : lineProject [((0:ℝ),(0:ℝ)),(10,0)] (0,0) = 0 := by
      norm_num [lineProject, projectLoop, footParam, segPoint, dist2]
    have h1 : edist2d (4, 3) (0, 0) = 5 := by
      rw [edist2d, dist2]
      norm_num
      rw [show (25 : ℝ) = 5 ^ 2 by norm_num, Real.sqrt_sq (by norm_num : (0:ℝ) ≤ 5)]
    have hrow : processRow [(0,0),(10,0)] ⟨.str "P1", .num 3, .num 4⟩ = .ok (0, 5) := by
      simp only [processRow, Cell.toNum, hn]
      rw [show ([((0:ℝ),(0:ℝ)),(10,0)].get? 0) = some (0,0) from rfl]
      simp only [hp, h1]
      rw [round3_zero, show round3 5 = 5 by simpa using round3_int 5]
    simp only [calculate_chainage_offset, Cell.isHeaderEasting, processRows, hrow]
    rfl
  · have hfoot : footPoint (0 : ℝ × ℝ) (10,0) (4,3) = (4,0) := by
      norm_num [footPoint, footParam, segPoint, dist2, Prod.fst, Prod.snd]
    simp only [specSelected, specCandidates, hn]
    norm_num [closestIn, hfoot, dist2]
  · have h1 : edist2d (4, 3) (4, 0) = 3 := by
      rw [edist2d, dist2]
      norm_num
      rw [show (9 : ℝ) = 3 ^ 2 by norm_num, Real.sqrt_sq (by norm_num : (0:ℝ) ≤ 3)]
    rw [h1, show round3 3 = 3 by simpa using round3_int 3]
  · have hseg : edist2d (0 : ℝ × ℝ) (10,0) = 10 := by
      rw [edist2d, dist2]
      norm_num
      rw [show (100 : ℝ) = 10 ^ 2 by norm_num, Real.sqrt_sq (by norm_num : (0:ℝ) ≤ 10)]
    have hp : lineProject [((0:ℝ),(0:ℝ)),(10,0)] (4,0) = 4 := by
      norm_num [lineProject, projectLoop, footParam, segPoint, dist2, hseg]
    rw [hp, show round3 4 = 4 by simpa using round3_int 4]

/-- Claim C2: the spec's Scenario 1 expects chainage `5.0` and offset
`3.0` for survey point `(5,3)` against the centerline built from
`(0,0,ch 0)` and `(10,0,ch 10)`.  The code instead snaps to a nearest
*vertex* (both vertices are at distance `√34`; the KDTree returns the
first), reporting chainage `0` and offset `round(√34, 3) = 5.831`; under
either tie resolution the offset is `5.831 ≠ 3.0` and the chainage is `0`
or `10`, never `5.0`. -/
theorem C2_scenario_one_fails_on_code :
    data_to_polyline [⟨some 0, some 0, some 0⟩, ⟨some 0, some 10, some 10⟩] =
      .ok [(0,0),(10,0)] ∧
    calculate_chainage_offset ⟨[⟨.str "1", .num 3, .num 5⟩], none, none⟩ [(0,0),(10,0)] =
      .ok (⟨[⟨.str "1", .num 3, .num 5⟩], some [0], some [5831 / 1000]⟩,
           ⟨[⟨.str "1", .num 3, .num 5⟩], some [0], some [5831 / 1000]⟩) ∧
    (5831 / 1000 : ℝ) ≠ 3 ∧ (0 : ℝ) ≠ 5 := by
  refine ⟨?_, ?_, by norm_num, by norm_num⟩
  · simp only [data_to_polyline, validFields, List.filterMap]
    norm_num [List.insertionSort, List.orderedInsert, lineStringOf]
  · have hn : nearestIdx [((0:ℝ),(0:ℝ)),(10,0)] (5,3) = 0 := by
      norm_num [nearestIdx, nearestIdxLoop, dist2]
    have hp : lineProject [((0:ℝ),(0:ℝ)),(10,0)] (0,0) = 0 := by
      norm_num [lineProject, projectLoop, footParam, segPoint, dist2]
    have h1 : edist2d (5, 3) (0, 0) = Real.sqrt 34 := by
      rw [edist2d, dist2]; norm_num
    have hsq := Real.sq_sqrt (show (0:ℝ) ≤ 34 by norm_num)
    have hnn := Real.sqrt_nonneg (34 : ℝ)
    have hround : round3 (Real.sqrt 34) = 5831 / 1000 := by
      have hfl : ⌊Real.sqrt 34 * 1000 + 1 / 2⌋ = (5831 : ℤ) := by
        apply Int.floor_eq_iff.mpr
        constructor
        · push_cast; nlinarith
        · push_cast; nlinarith
      rw [round3, round_eq, hfl]
      norm_num
    have hrow : processRow [(0,0),(10,0)] ⟨.str "1", .num 3, .num 5⟩ =
        .ok (0, 5831 / 1000) := by
      simp only [processRow, Cell.toNum, hn]
      rw [show ([((0:ℝ),(0:ℝ)),(10,0)].get? 0) = some (0,0) from rfl]
      simp only [hp, h1, hround, round3_zero]
    simp only [calculate_chainage_offset, Cell.isHeaderEasting, processRows, hrow]
    rfl

/-- Claim C3: offset `≥ 0` holds of the code, but "offset = 0 iff the
point lies on the polyline" does not: the code measures the distance to
the nearest *vertex*, so the survey point `(4,0)`, which lies exactly on
the segment from `(0,0)` to `(10,0)` (parameter `2/5`), gets offset
`4 ≠ 0` (its nearest vertex is `(0,0)`). -/
theorem C3_on_polyline_but_positive_offset :
    onPolyline [(0,0),(10,0)] (4,0) ∧
    calculate_chainage_offset ⟨[⟨.str "P2", .num 0, .num 4⟩], none, none⟩ [(0,0),(10,0)] =
      .ok (⟨[⟨.str "P2", .num 0, .num 4⟩], some [0], some [4]⟩,
           ⟨[⟨.str "P2", .num 0, .num 4⟩], some [0], some [4]⟩) := by
  constructor
  · refine Or.inr ⟨((0,0),(10,0)), by simp, 2/5, by norm_num, by norm_num, ?_⟩
    simp only [segPoint]
    norm_num
  · have hn : nearestIdx [((0:ℝ),(0:ℝ)),(10,0)] (4,0) = 0 := by
      norm_num [nearestIdx, nearestIdxLoop, dist2]
    have hp : lineProject [((0:ℝ),(0:ℝ)),(10,0)] (0,0) = 0 := by
      norm_num [lineProject, projectLoop, footParam, segPoint, dist2]
    have h1 : edist2d (4, 0) (0, 0) = 4 := by
      rw [edist2d, dist2]
      norm_num
      rw [show (16 : ℝ) = 4 ^ 2 by norm_num, Real.sqrt_sq (by norm_num : (0:ℝ) ≤ 4)]
    have hrow : processRow [(0,0),(10,0)] ⟨.str "P2", .num 0, .num 4⟩ = .ok (0, 4) := by
      simp only [processRow, Cell.toNum, hn]
      rw [show ([((0:ℝ),(0:ℝ)),(10,0)].get? 0) = some (0,0) from rfl]
      simp only [hp, h1]
      rw [round3_zero, show round3 4 = 4 by simpa using round3_int 4]
    simp only [calculate_chainage_offset, Cell.isHeaderEasting, processRows, hrow]
    rfl

/-- Claim C4: the spec says an empty survey input yields an empty result
with no error, but the code evaluates `survey_df["Easting"].iloc[0]`
unconditionally, which on a zero-row frame raises an `IndexError` before
any processing happens — for every polyline. -/
theorem C4_empty_survey_raises_index_error (polyline : List (ℝ × ℝ)) :
    calculate_chainage_offset ⟨[], none, none⟩ polyline = .error .indexError := rfl

/-- Behaviour of the call when the first row is the embedded header row:
the local name is rebound to the `iloc[1:]` copy, so the result frame is
built from the tail and the caller's frame comes back untouched. -/
theorem calculate_header_mode (df : SurveyDF) (polyline : List (ℝ × ℝ))
    (r0 : SurveyRow) (rest : List SurveyRow)
    (hrows : df.rows = r0 :: rest) (hh : r0.easting.isHeaderEasting = true) :
    calculate_chainage_offset df polyline =
      match processRows polyline rest with
      | .error e => .error e
      | .ok (cs, os) => .ok (⟨rest, some cs, some os⟩, df) := by
  rw [calculate_chainage_offset, hrows]
  simp only [hh, if_true]

/-- Behaviour of the call when the first row is not the header row: the
columns are written into the caller's frame, which is also returned. -/
theorem calculate_normal_mode (df : SurveyDF) (polyline : List (ℝ × ℝ))
    (r0 : SurveyRow) (rest : List SurveyRow)
    (hrows : df.rows = r0 :: rest) (hh : r0.easting.isHeaderEasting = false) :
    calculate_chainage_offset df polyline =
      match processRows polyline (r0 :: rest) with
      | .error e => .error e
      | .ok (cs, os) =>
          .ok (⟨r0 :: rest, some cs, some os⟩, ⟨r0 :: rest, some cs, some os⟩) := by
  rw [calculate_chainage_offset, hrows]
  simp only [hh, if_false, Bool.false_eq_true]

/-- Claim C5 counterexample: the spec says the survey input is never
mutated in place, but on the one-row numeric frame below the caller's
frame after the call (second component of the model's result) is the
augmented frame itself — `Chainage` and `Offset` columns were written into
the caller's object — and differs from the original frame. -/
theorem C5_counterexample_input_mutated :
    calculate_chainage_offset ⟨[⟨.str "P1", .num 0, .num 1⟩], none, none⟩ [(0,0),(10,0)] =
      .ok (⟨[⟨.str "P1", .num 0, .num 1⟩], some [0], some [1]⟩,
           ⟨[⟨.str "P1", .num 0, .num 1⟩], some [0], some [1]⟩) ∧
    (⟨[⟨.str "P1", .num 0, .num 1⟩], some [0], some [1]⟩ : SurveyDF) ≠
      ⟨[⟨.str "P1", .num 0, .num 1⟩], none, none⟩ := by
  refine ⟨calcEvalOneNumeric, ?_⟩
  intro h
  injection h with h1 h2
  exact Option.noConfusion h2

/-- Claim C5, amended: the projection mutates the caller's survey frame in
place — whenever the call returns, the caller's frame (second component)
is the returned augmented frame itself, with `Chainage`/`Offset` columns
present and the processed rows — except when the first row is the literal
header row, in which case the function rebinds to the `iloc[1:]` copy and
the caller's frame is returned unchanged. -/
theorem C5_amended_mutates_in_place (df : SurveyDF) (polyline : List (ℝ × ℝ))
    (ret caller : SurveyDF)
    (h : calculate_chainage_offset df polyline = .ok (ret, caller)) :
    (headerFirst df.rows = true → caller = df) ∧
    (headerFirst df.rows = false → caller = ret ∧ ret.rows = df.rows ∧
      ret.chainage.isSome ∧ ret.offset.isSome) := by
  match hrows : df.rows with
  | [] =>
      rw [calculate_chainage_offset, hrows] at h
      exact absurd h (by simp)
  | r0 :: rest =>
      cases hh : r0.easting.isHeaderEasting with
      | true =>
          rw [calculate_header_mode df polyline r0 rest hrows hh] at h
          refine ⟨fun _ => ?_, fun hfalse => ?_⟩
          · match hpr : processRows polyline rest with
            | .error e => rw [hpr] at h; exact absurd h (by simp)
            | .ok (cs, os) =>
                rw [hpr] at h
                injection h with h
                injection h with h1 h2
                exact h2.symm
          · have hfalse' : r0.easting.isHeaderEasting = false := hfalse
            rw [hh] at hfalse'
            exact absurd hfalse' (by simp)
      | false =>
          rw [calculate_normal_mode df polyline r0 rest hrows hh] at h
          refine ⟨fun htrue => ?_, fun _ => ?_⟩
          · have htrue' : r0.easting.isHeaderEasting = true := htrue
            rw [hh] at htrue'
            exact absurd htrue' (by simp)
          · match hpr : processRows polyline (r0 :: rest) with
            | .error e => rw [hpr] at h; exact absurd h (by simp)
            | .ok (cs, os) =>
                rw [hpr] at h
                injection h with h
                injection h with h1 h2
                refine ⟨h2.symm.trans h1, ?_, ?_, ?_⟩
                · rw [← h1]
                · rw [← h1]; rfl
                · rw [← h1]; rfl

/-- Witness for the amended C5 at the concrete one-row frame: the first
row is not the header row, and the caller's frame after the call is the
augmented returned frame with both columns present. -/
theorem C5_amended_witness :
    (⟨[⟨.str "P1", .num 0, .num 1⟩], some [0], some [1]⟩ : SurveyDF) =
      ⟨[⟨.str "P1", .num 0, .num 1⟩], some [0], some [1]⟩ ∧
    ([⟨.str "P1", .num 0, .num 1⟩] : List SurveyRow) = [⟨.str "P1", .num 0, .num 1⟩] ∧
    (some [(0:ℝ)]).isSome ∧ (some [(1:ℝ)]).isSome :=
  (C5_amended_mutates_in_place ⟨[⟨.str "P1", .num 0, .num 1⟩], none, none⟩ [(0,0),(10,0)]
    ⟨[⟨.str "P1", .num 0, .num 1⟩], some [0], some [1]⟩
    ⟨[⟨.str "P1", .num 0, .num 1⟩], some [0], some [1]⟩ calcEvalOneNumeric).2 rfl

/-- Claim C6 counterexample: an alignment input with one record whose
northing is missing has zero valid records after dropping (fewer than 2),
yet does not fail at all — `LineString([])` builds an empty geometry, so
`data_to_polyline` returns an empty polyline; and no
`InsufficientDataError` exists anywhere in the repository. -/
theorem C6_counterexample_zero_valid_no_error :
    data_to_polyline [⟨none, some 1, some 2⟩] = .ok [] := rfl

/-- Claim C6, amended: for a nonempty record list, 0 valid records after
dropping yield an empty polyline with no error; exactly 1 valid record
raises an error — the geometry library's `ValueError` for a
single-coordinate `LineString`, not a dedicated `InsufficientDataError`
(no such class exists in the repository). -/
theorem C6_amended_single_valid_raises (data : List AlignRecord)
    (hne : data ≠ []) :
    ((data.filterMap validFields).length = 0 → data_to_polyline data = .ok []) ∧
    ((data.filterMap validFields).length = 1 →
      data_to_polyline data = .error .singleCoordinate) := by
  have hemp : data.isEmpty = false := by
    simp [List.isEmpty_iff, hne]
  constructor
  · intro h
    rw [List.length_eq_zero] at h
    rw [data_to_polyline, hemp]
    simp [h, lineStringOf, List.insertionSort]
  · intro h
    rw [data_to_polyline, hemp]
    simp only [Bool.false_eq_true, if_false, lineStringOf]
    rw [if_pos]
    rw [List.length_map, List.length_insertionSort, h]

/-- Witness for the amended C6 at a concrete one-valid-record input. -/
theorem C6_amended_witness :
    data_to_polyline [⟨some 1, some 2, some 3⟩] = .error .singleCoordinate :=
  (C6_amended_single_valid_raises [⟨some 1, some 2, some 3⟩] (by simp)).2 rfl

/-- Claim C8 counterexample: on the two-row input whose first row is the
embedded header row, the output frame has one row and one result per
*remaining* row — not one per input row: output length 1 against input
length 2 (and the caller's two-row frame comes back without results). -/
theorem C8_counterexample_header_row_shrinks_output :
    calculate_chainage_offset
        ⟨[⟨.str "Point", .str "Northing", .str "Easting"⟩,
          ⟨.str "P1", .num 0, .num 1⟩], none, none⟩ [(0,0),(10,0)] =
      .ok (⟨[⟨.str "P1", .num 0, .num 1⟩], some [0], some [1]⟩,
           ⟨[⟨.str "Point", .str "Northing", .str "Easting"⟩,
             ⟨.str "P1", .num 0, .num 1⟩], none, none⟩) ∧
    ([⟨.str "P1", .num 0, .num 1⟩] : List SurveyRow).length = 1 ∧
    ([⟨.str "Point", .str "Northing", .str "Easting"⟩,
      ⟨.str "P1", .num 0, .num 1⟩] : List SurveyRow).length = 2 := by
  refine ⟨?_, rfl, rfl⟩
  have hn : nearestIdx [((0:ℝ),(0:ℝ)),(10,0)] (1,0) = 0 := by
    norm_num [nearestIdx, nearestIdxLoop, dist2]
  have hp : lineProject [((0:ℝ),(0:ℝ)),(10,0)] (0,0) = 0 := by
    norm_num [lineProject, projectLoop, footParam, segPoint, dist2]
  have h1 : edist2d (1, 0) (0, 0) = 1 := by
    rw [edist2d, dist2]
    norm_num
  have hrow : processRow [(0,0),(10,0)] ⟨.str "P1", .num 0, .num 1⟩ = .ok (0, 1) := by
    simp only [processRow, Cell.toNum, hn]
    rw [show ([((0:ℝ),(0:ℝ)),(10,0)].get? 0) = some (0,0) from rfl]
    simp only [hp, h1]
    rw [round3_zero, show round3 1 = 1 by simpa using round3_int 1]
  rw [calculate_header_mode
        ⟨[⟨.str "Point", .str "Northing", .str "Easting"⟩,
          ⟨.str "P1", .num 0, .num 1⟩], none, none⟩ [(0,0),(10,0)]
        ⟨.str "Point", .str "Northing", .str "Easting"⟩
        [⟨.str "P1", .num 0, .num 1⟩] rfl (by rfl)]
  rw [processRows, hrow, processRows]

/-- Claim C8, amended: for a nonempty survey input whose first row's
Easting is not the literal header string, all of whose coordinate cells
are numeric, and a nonempty polyline, projection succeeds and produces
exactly one chainage and one offset per input row, against the unchanged
row sequence (same length, same order). -/
theorem C8_amended_order_preserving (df : SurveyDF) (polyline : List (ℝ × ℝ))
    (hne : df.rows ≠ []) (hhd : headerFirst df.rows = false)
    (hnum : ∀ r ∈ df.rows, numericRow r) (hpoly : polyline ≠ []) :
    ∃ cs os, calculate_chainage_offset df polyline =
        .ok (⟨df.rows, some cs, some os⟩, ⟨df.rows, some cs, some os⟩) ∧
      cs.length = df.rows.length ∧ os.length = df.rows.length := by
  match hrows : df.rows with
  | [] => exact absurd hrows hne
  | r0 :: rest =>
      have hh : r0.easting.isHeaderEasting = false := by
        rw [hrows] at hhd
        exact hhd
      rw [hrows] at hnum
      obtain ⟨cs, os, hpr, hlen1, hlen2⟩ :=
        processRows_ok polyline (r0 :: rest) hnum hpoly
      refine ⟨cs, os, ?_, hlen1, hlen2⟩
      rw [calculate_normal_mode df polyline r0 rest hrows hh, hpr]

/-- Witness for the amended C8 at the one-row numeric frame against the
two-vertex polyline. -/
theorem C8_amended_witness :
    ∃ cs os, calculate_chainage_offset ⟨[⟨.str "P1", .num 0, .num 1⟩], none, none⟩
        [(0,0),(10,0)] =
        .ok (⟨[⟨.str "P1", .num 0, .num 1⟩], some cs, some os⟩,
             ⟨[⟨.str "P1", .num 0, .num 1⟩], some cs, some os⟩) ∧
      cs.length = 1 ∧ os.length = 1 :=
  C8_amended_order_preserving ⟨[⟨.str "P1", .num 0, .num 1⟩], none, none⟩ [(0,0),(10,0)]
    (by simp) rfl
    (by intro r hr
        simp only [List.mem_singleton] at hr
        subst hr
        exact ⟨rfl, rfl⟩)
    (by simp)

/-- Claim C9: projection is deterministic — the model is a pure function
of the survey frame and the polyline, so equal inputs give equal output
sequences.  (The source has no randomness; the KDTree query and the loop
are deterministic in the inputs.) -/
theorem C9_deterministic (df₁ df₂ : SurveyDF) (poly₁ poly₂ : List (ℝ × ℝ))
    (hdf : df₁ = df₂) (hpoly : poly₁ = poly₂) :
    calculate_chainage_offset df₁ poly₁ = calculate_chainage_offset df₂ poly₂ := by
  rw [hdf, hpoly]

/-- Witness for C9 at a concrete input. -/
theorem C9_deterministic_witness :
    calculate_chainage_offset ⟨[⟨.str "P1", .num 0, .num 1⟩], none, none⟩ [(0,0),(10,0)] =
      calculate_chainage_offset ⟨[⟨.str "P1", .num 0, .num 1⟩], none, none⟩ [(0,0),(10,0)] :=
  C9_deterministic _ _ _ _ rfl rfl

/-- Claim C10 counterexample: the claim's second half says that for every
first-row Easting value other than the literal `"Easting"` all input
records are processed; but for the non-numeric first-row value `"X"` the
call aborts with the `Point`-construction error and processes nothing, so
no record yields a result. -/
theorem C10_counterexample_string_first_value :
    calculate_chainage_offset ⟨[⟨.str "P1", .num 0, .str "X"⟩], none, none⟩ [(0,0),(10,0)] =
      .error .pointInitError := rfl

/-- Claim C10, amended: if the first survey record's Easting is the
literal string `"Easting"`, projection silently removes that record: the
output is built from the remaining rows only and contains one fewer row
than the input (given numeric remaining rows and a nonempty polyline),
with no result for the removed record.  For every other first-row value
the first record is kept and all records are processed — provided every
coordinate cell is numeric; a non-numeric cell aborts with an error
instead. -/
theorem C10_amended_header_skip (df : SurveyDF) (polyline : List (ℝ × ℝ))
    (r0 : SurveyRow) (rest : List SurveyRow) (hrows : df.rows = r0 :: rest)
    (hpoly : polyline ≠ []) :
    (r0.easting = .str "Easting" → (∀ r ∈ rest, numericRow r) →
      ∃ cs os, calculate_chainage_offset df polyline =
          .ok (⟨rest, some cs, some os⟩, df) ∧
        cs.length + 1 = df.rows.length ∧ os.length + 1 = df.rows.length) ∧
    (r0.easting.isHeaderEasting = false → (∀ r ∈ df.rows, numericRow r) →
      ∃ cs os, calculate_chainage_offset df polyline =
          .ok (⟨df.rows, some cs, some os⟩, ⟨df.rows, some cs, some os⟩) ∧
        cs.length = df.rows.length ∧ os.length = df.rows.length) := by
  constructor
  · intro hh hnum
    have hh' : r0.easting.isHeaderEasting = true := by
      rw [hh]
      rfl
    obtain ⟨cs, os, hpr, hlen1, hlen2⟩ := processRows_ok polyline rest hnum hpoly
    refine ⟨cs, os, ?_, ?_, ?_⟩
    · rw [calculate_header_mode df polyline r0 rest hrows hh', hpr]
    · rw [hrows, List.length_cons, hlen1]
    · rw [hrows, List.length_cons, hlen2]
  · intro hh hnum
    rw [hrows] at hnum
    obtain ⟨cs, os, hpr, hlen1, hlen2⟩ :=
      processRows_ok polyline (r0 :: rest) hnum hpoly
    refine ⟨cs, os, ?_, ?_, ?_⟩
    · rw [calculate_normal_mode df polyline r0 rest hrows hh, hpr, hrows]
    · rw [hrows]
      exact hlen1
    · rw [hrows]
      exact hlen2

/-- Witness for the amended C10: the two-row frame whose first row is the
header row loses exactly that row — output lengths `1 = 2 - 1`. -/
theorem C10_amended_witness :
    ∃ cs os, calculate_chainage_offset
        ⟨[⟨.str "Point", .str "Northing", .str "Easting"⟩,
          ⟨.str "P1", .num 0, .num 1⟩], none, none⟩ [(0,0),(10,0)] =
        .ok (⟨[⟨.str "P1", .num 0, .num 1⟩], some cs, some os⟩,
             ⟨[⟨.str "Point", .str "Northing", .str "Easting"⟩,
               ⟨.str "P1", .num 0, .num 1⟩], none, none⟩) ∧
      cs.length + 1 = 2 ∧ os.length + 1 = 2 :=
  (C10_amended_header_skip
      ⟨[⟨.str "Point", .str "Northing", .str "Easting"⟩,
        ⟨.str "P1", .num 0, .num 1⟩], none, none⟩ [(0,0),(10,0)]
      ⟨.str "Point", .str "Northing", .str "Easting"⟩
      [⟨.str "P1", .num 0, .num 1⟩] rfl (by simp)).1 rfl
    (by intro r hr
        simp only [List.mem_singleton] at hr
        subst hr
        exact ⟨rfl, rfl⟩)
